import Mathlib

/-!
Verification of the bunkrd adaptive concurrent download engine.

Shallow embedding of the Python source:
- `src/bunkrd/downloaders/base_downloader.py` (transfer session, retry loop)
- `src/bunkrd/controller.py` (concurrency scheduler, per-file orchestration)
- `src/bunkrd/utils/request_utils.py` (resource monitor / thread scaling)

Python floats are modelled as `ℚ`; `int(x)` on the nonnegative values that
occur here is `Int.floor`.  Byte counts and HTTP statuses are `ℕ`.
-/

namespace Bunkrd

/-! ## Constants from base_downloader.py -/

def MIN_CHUNK_SIZE : ℤ := 64 * 1024
def DEFAULT_CHUNK_SIZE : ℤ := 1024 * 1024
def MAX_CHUNK_SIZE : ℤ := 4 * 1024 * 1024

def SLOW_CONNECTION : ℚ := 256 * 1024
def MEDIUM_CONNECTION : ℚ := 1024 * 1024
def FAST_CONNECTION : ℚ := 5 * 1024 * 1024

/-! ## Transfer session: adaptive chunk sizing

`BaseDownloader.get_adaptive_chunk_size` (base_downloader.py lines 85-127).
`connection_speed` is `None` or a float; Python's `if not self.connection_speed`
treats `0.0` like `None` (both fall back to the default chunk size).
-/

def get_adaptive_chunk_size (connection_speed : Option ℚ) : ℤ :=
  match connection_speed with
  | none => DEFAULT_CHUNK_SIZE
  | some s =>
    if s = 0 then DEFAULT_CHUNK_SIZE
    else if s < SLOW_CONNECTION then MIN_CHUNK_SIZE
    else if s < MEDIUM_CONNECTION then
      ⌊(MIN_CHUNK_SIZE : ℚ) +
        (s - SLOW_CONNECTION) / (MEDIUM_CONNECTION - SLOW_CONNECTION) *
          ((DEFAULT_CHUNK_SIZE : ℚ) - (MIN_CHUNK_SIZE : ℚ))⌋
    else if s < FAST_CONNECTION then
      ⌊(DEFAULT_CHUNK_SIZE : ℚ) +
        (s - MEDIUM_CONNECTION) / (FAST_CONNECTION - MEDIUM_CONNECTION) *
          ((MAX_CHUNK_SIZE : ℚ) - (DEFAULT_CHUNK_SIZE : ℚ))⌋
    else MAX_CHUNK_SIZE

/-- `BaseDownloader.update_connection_speed` (lines 129-145): exponential
moving average, 30% new / 70% previous, guarded by positive time and bytes. -/
def update_connection_speed (connection_speed : Option ℚ)
    (bytes_downloaded download_time : ℚ) : Option ℚ :=
  if 0 < download_time ∧ 0 < bytes_downloaded then
    let new_speed := bytes_downloaded / download_time
    match connection_speed with
    | some s => if s = 0 then some new_speed else some (3/10 * new_speed + 7/10 * s)
    | none => some new_speed
  else connection_speed

/-- The chunk-size blend inside `BaseDownloader.download` (lines 321-326):
`current_chunk_size = int(0.7 * current_chunk_size + 0.3 * new_chunk_size)`,
applied only when the new recommendation differs from the current size. -/
def blend_chunk_size (current new_size : ℤ) : ℤ :=
  if new_size ≠ current then ⌊(7/10 : ℚ) * (current : ℚ) + 3/10 * (new_size : ℚ)⌋
  else current

/-- One periodic reassessment in the streaming loop (lines 310-329): when
`chunk_time > 0`, update the speed EMA, recompute the tier recommendation and
blend the working chunk size toward it. -/
def reassess_step (st : Option ℚ × ℤ) (sample : ℚ × ℚ) : Option ℚ × ℤ :=
  if 0 < sample.2 then
    let spd := update_connection_speed st.1 sample.1 sample.2
    (spd, blend_chunk_size st.2 (get_adaptive_chunk_size spd))
  else st

/-- All working chunk sizes computed during one transfer: the initial
tier-derived size followed by every blended adjustment, as a function of the
initial speed estimate and the sequence of (bytes, time) throughput samples. -/
def chunk_size_trace (speed0 : Option ℚ) (samples : List (ℚ × ℚ)) : List ℤ :=
  (List.scanl reassess_step (speed0, get_adaptive_chunk_size speed0) samples).map
    Prod.snd

/-! ## Retry controller

`BaseDownloader.download_with_retry` (base_downloader.py lines 392-435).
The inner `download` returns a success dict or `False`; the loop inspects only
that success/failure distinction.  `ErrorKind` labels which branch of
`download` produced the failure (the spec's error taxonomy). -/

inductive ErrorKind where
  | NetworkError
  | Timeout
  | Maintenance
  | Http (code : ℕ)
  | RobotsDenied
  | SizeMismatch
  deriving DecidableEq, Repr

inductive AttemptOutcome where
  | ok
  | failed (k : ErrorKind)
  deriving DecidableEq, Repr

/-- Outcome of the whole retry loop: whether it succeeded, how many calls to
`download` were made, and the backoff delays slept (in seconds). -/
structure RetryRun where
  succeeded : Bool
  attempts_made : ℕ
  delays : List ℚ
  deriving DecidableEq, Repr

/-- Backoff before the attempt after attempt `i`:
`delay = 2 + (i - 1) * 0.5` (base_downloader.py line 424). -/
def retry_delay (i : ℕ) : ℚ := 2 + ((i : ℚ) - 1) * (1/2)

/-- The body of `for i in range(1, retries + 1)` starting at attempt `i`;
`left = retries - i` is the number of attempts still available after this
one, so Python's `i < retries` test is `0 < left` here. -/
def retry_go (attempt : ℕ → AttemptOutcome) (i left : ℕ) : RetryRun :=
  match attempt i with
  | .ok => ⟨true, 1, []⟩
  | .failed _ =>
    match left with
    | 0 => ⟨false, 1, []⟩
    | left' + 1 =>
      let rest := retry_go attempt (i + 1) left'
      ⟨rest.succeeded, rest.attempts_made + 1, retry_delay i :: rest.delays⟩

def download_with_retry (attempt : ℕ → AttemptOutcome) (retries : ℕ) : RetryRun :=
  if retries = 0 then ⟨false, 0, []⟩ else retry_go attempt 1 (retries - 1)

/-! ## Transfer session

`BaseDownloader.download` (base_downloader.py lines 147-390), abstracted over
the filesystem and the sequence of HTTP responses.  Each call of `download`
issues one GET and consumes one response; the 416 and ignored-Range branches
recurse on the remaining responses after deleting the `.part` file. -/

/-- One GET response: status, whether the resolved URL is the maintenance
sentinel, the `content-range` total (when present), `content-length`
(when present), and the number of body bytes actually delivered. -/
structure Resp where
  status : ℕ
  is_maintenance_url : Bool
  content_range_total : Option ℕ
  content_length : Option ℕ
  body_bytes : ℕ
  deriving DecidableEq, Repr

/-- Filesystem and ledger state for one destination path:
`part_size = some k` means a `.part` file of `k` bytes exists,
`final_size = some n` means a file at the final path exists with `n` bytes,
`ledger` is whether the URL was recorded as downloaded. -/
structure DLState where
  part_size : Option ℕ
  final_size : Option ℕ
  ledger : Bool
  deriving DecidableEq, Repr

inductive DLResult where
  | robots_denied
  | network_error
  | http_error (code : ℕ)
  | maintenance
  | size_mismatch
  | ok (bytes : ℕ)
  deriving DecidableEq, Repr

/-- `BaseDownloader.download`.  `robots_denies` is
`RESPECT_ROBOTS_TXT and not can_fetch(url, ua)` (lines 162-166; note the
shipped config has `RESPECT_ROBOTS_TXT = False`).  An empty response list
models a request exception (`Timeout`/`RequestException` → `False`). -/
def download (robots_denies : Bool) (st : DLState) (resps : List Resp) :
    DLResult × DLState :=
  if robots_denies then (.robots_denied, st)
  else
    match resps with
    | [] => (.network_error, st)
    | r :: rest =>
      -- start_byte is the size of an existing .part file, else 0 (lines 186-191)
      let start_byte := st.part_size.getD 0
      if 0 < start_byte ∧ r.status = 416 then
        -- lines 226-231: remove the .part file and restart the same task
        download robots_denies { st with part_size := none } rest
      else if 0 < start_byte ∧ r.status ≠ 206 then
        -- lines 233-238: server ignored the Range header, start from scratch
        download robots_denies { st with part_size := none } rest
      else if ¬ (200 ≤ r.status ∧ r.status < 300) then
        (.http_error r.status, st)
      else if r.is_maintenance_url then
        (.maintenance, st)
      else
        -- lines 251-260: resolve the expected total size
        let file_size : ℤ :=
          if r.status = 206 then
            match r.content_range_total with
            | some total => (total : ℤ)
            | none => (start_byte : ℤ) + ((r.content_length.getD 0 : ℕ) : ℤ)
          else
            match r.content_length with
            | some l => (l : ℤ)
            | none => -1
        -- lines 266-333: stream the body into the .part file
        let written := start_byte + r.body_bytes
        -- lines 345-347: rename .part to the final path (before any size check)
        let st1 : DLState := { st with part_size := none, final_size := some written }
        -- lines 353-362: integrity check against the expected size
        if file_size > -1 ∧ (written : ℤ) ≠ file_size then
          (.size_mismatch, st1)
        else
          -- line 365: mark_as_downloaded, then return the stats dict
          (.ok written, { st1 with ledger := true })

/-! ## Orchestrator: per-file task (`DownloadController._download_file`,
controller.py lines 635-702). -/

inductive NetEvent where
  | resolver_call
  | transfer_request
  deriving DecidableEq, Repr

structure FileOutcome where
  success : Bool
  skipped : Bool
  deriving DecidableEq, Repr

/-- `_download_file`: ledger check first (lines 650-657), then the resolver
(`get_real_download_url`, line 666), then the transfer
(`download_with_retry`, line 676).  The event list records every
resolver/network invocation performed for the task. -/
def download_file (ledger : List String) (file_url : String)
    (resolve_ok transfer_ok : Bool) : FileOutcome × List NetEvent :=
  if file_url ∈ ledger then
    ({ success := true, skipped := true }, [])
  else if resolve_ok = false then
    ({ success := false, skipped := false }, [.resolver_call])
  else
    ({ success := transfer_ok, skipped := false }, [.resolver_call, .transfer_request])

/-! ## Concurrency scheduler

`DownloadController._download_files_concurrently` (controller.py lines
366-534).  The completion-processing loop is modelled as a step function on
the scheduler state, driven by the sequence of completion outcomes; worker
interleaving only affects completion order, which the state machine takes as
an input. -/

inductive Outcome where
  | success
  | skipped
  | failure
  deriving DecidableEq, Repr

structure SchedState where
  /-- in-flight tasks: submitted to the executor, not yet completed. -/
  active : ℕ
  /-- tasks still waiting in `remaining_urls`. -/
  remaining : ℕ
  /-- `actual_workers`, the current admission limit. -/
  actual_workers : ℕ
  consecutive_errors : ℕ
  reduced_concurrency : Bool
  error_count : ℕ
  completed : ℕ
  skipped_count : ℕ
  /-- number of 3-second recovery pauses slept (`time.sleep(3.0)`, line 486). -/
  pauses : ℕ
  deriving DecidableEq, Repr

/-- Lines 399-404: for batches of more than 10 URLs the pool is quietly
shrunk by one worker (floor 2); otherwise the configured value is used. -/
def actual_workers_for (max_concurrent n_urls : ℕ) : ℕ :=
  if 10 < n_urls then min max_concurrent (max 2 (max_concurrent - 1))
  else max_concurrent

/-- Lines 408-427: submit the initial batch `file_urls[:actual_workers]`;
the rest wait in `remaining_urls`. -/
def init_sched_state (max_concurrent n_urls : ℕ) : SchedState :=
  let w := actual_workers_for max_concurrent n_urls
  { active := min w n_urls
    remaining := n_urls - min w n_urls
    actual_workers := w
    consecutive_errors := 0
    reduced_concurrency := false
    error_count := 0
    completed := 0
    skipped_count := 0
    pauses := 0 }

/-- Lines 436-494: pop the finished future and update the telemetry counters.
Success and skip reset `consecutive_errors`; failure (or an exception from the
future) increments it together with `error_count`. -/
def record_completion (st : SchedState) (o : Outcome) : SchedState :=
  match o with
  | .success =>
    { st with active := st.active - 1, completed := st.completed + 1
              consecutive_errors := 0 }
  | .skipped =>
    { st with active := st.active - 1, completed := st.completed + 1
              skipped_count := st.skipped_count + 1, consecutive_errors := 0 }
  | .failure =>
    { st with active := st.active - 1, completed := st.completed + 1
              error_count := st.error_count + 1
              consecutive_errors := st.consecutive_errors + 1 }

/-- Lines 477-486: on three consecutive errors, halve the worker limit
(floor 1) exactly once per run and sleep 3 seconds. -/
def reduce_if_needed (st : SchedState) : SchedState :=
  if 3 ≤ st.consecutive_errors ∧ st.reduced_concurrency = false then
    { st with actual_workers := max 1 (st.actual_workers / 2)
              reduced_concurrency := true
              pauses := st.pauses + 1 }
  else st

/-- Lines 496-502: admit the next queued task only while the in-flight count
is below the current worker limit. -/
def admit_next (st : SchedState) : SchedState :=
  if 0 < st.remaining ∧ st.active < st.actual_workers then
    { st with remaining := st.remaining - 1, active := st.active + 1 }
  else st

/-- One iteration of the completion loop: record the completion, then the
concurrency-reduction check (with its pause), then the admission check —
in the source's order, so any pause precedes the next admission. -/
def sched_step (st : SchedState) (o : Outcome) : SchedState :=
  admit_next (reduce_if_needed (record_completion st o))

/-- The completion loop run over a sequence of completion outcomes. -/
def sched_run (st : SchedState) (outcomes : List Outcome) : SchedState :=
  outcomes.foldl sched_step st

/-! ## Resource monitor: thread scaling

`get_optimal_thread_count` (request_utils.py lines 392-450) and its
thresholds (lines 32-37). -/

def MEMORY_WARNING_THRESHOLD : ℚ := 80
def CPU_HIGH_THRESHOLD : ℚ := 85
def CPU_CRITICAL_THRESHOLD : ℚ := 95

/-- The CPU-pressure reduction factor chosen at lines 421-428: the
`system_percent > CPU_HIGH_THRESHOLD` test comes first, its `elif` tests
`system_percent > CPU_CRITICAL_THRESHOLD`. -/
def cpu_reduction_factor (system_percent : ℚ) : ℚ :=
  if system_percent > CPU_HIGH_THRESHOLD then 6/10
  else if system_percent > CPU_CRITICAL_THRESHOLD then 4/10
  else 1

/-- `get_optimal_thread_count`, for the case where CPU info is available
(`cpu_info` non-`None`); `memory_percent = none` models `get_memory_usage()`
returning `None`.  Python's `int()` is floor on these nonnegative values. -/
def get_optimal_thread_count (cpu_cores : ℕ) (system_percent : ℚ)
    (memory_percent : Option ℚ) (max_threads : Option ℕ) (min_threads : ℕ)
    (target_load_factor : ℚ) : ℕ :=
  let base1 := max 1 (⌊(cpu_cores : ℚ) * target_load_factor⌋.toNat)
  let base2 := max 1 (⌊(base1 : ℚ) * cpu_reduction_factor system_percent⌋.toNat)
  let base3 :=
    match memory_percent with
    | some m =>
      if m > MEMORY_WARNING_THRESHOLD then
        max 1 (⌊(base2 : ℚ) *
          (1 - (m - MEMORY_WARNING_THRESHOLD) / (100 - MEMORY_WARNING_THRESHOLD))⌋.toNat)
      else base2
    | none => base2
  match max_threads with
  | some mt => min mt (max min_threads base3)
  | none => max min_threads base3

/-! ## Helper lemmas -/

/-- Linear interpolation `lo + (s-a)/(b-a) * (hi-lo)` stays in `[lo, hi)`
when `s ∈ [a, b)`. -/
lemma interp_mem (a b s lo hi : ℚ) (hab : a < b) (hlh : lo < hi)
    (h1 : a ≤ s) (h2 : s < b) :
    lo ≤ lo + (s - a) / (b - a) * (hi - lo) ∧
      lo + (s - a) / (b - a) * (hi - lo) < hi := by
  have hba : 0 < b - a := by linarith
  have hq0 : 0 ≤ (s - a) / (b - a) := div_nonneg (by linarith) hba.le
  have hq1 : (s - a) / (b - a) < 1 := (div_lt_one hba).mpr (by linarith)
  constructor
  · nlinarith
  · nlinarith

lemma get_adaptive_chunk_size_bounds (spd : Option ℚ) :
    MIN_CHUNK_SIZE ≤ get_adaptive_chunk_size spd ∧
      get_adaptive_chunk_size spd ≤ MAX_CHUNK_SIZE := by
  cases spd with
  | none =>
    norm_num [get_adaptive_chunk_size, MIN_CHUNK_SIZE, DEFAULT_CHUNK_SIZE,
      MAX_CHUNK_SIZE]
  | some s =>
    simp only [get_adaptive_chunk_size, MIN_CHUNK_SIZE, DEFAULT_CHUNK_SIZE,
      MAX_CHUNK_SIZE, SLOW_CONNECTION, MEDIUM_CONNECTION, FAST_CONNECTION]
    split_ifs with h0 h1 h2 h3
    · norm_num
    · norm_num
    · have hx := interp_mem (256 * 1024) (1024 * 1024) s
        ((64 : ℚ) * 1024 * 1024 / 1024) (1024 * 1024) (by norm_num)
        (by norm_num) (by linarith) h2
      constructor
      · refine Int.le_floor.mpr ?_
        push_cast
        have := hx.1
        norm_num at this ⊢
        linarith
      · have hfl : ⌊((64 : ℚ) * 1024 + (s - 256 * 1024) /
            (1024 * 1024 - 256 * 1024) * (1024 * 1024 - 64 * 1024))⌋ <
            (4 * 1024 * 1024 : ℤ) := by
          refine Int.floor_lt.mpr ?_
          push_cast
          have := hx.2
          norm_num at this ⊢
          linarith
        have hcast : ((64 : ℚ) * 1024 * 1024 / 1024) = (64 : ℚ) * 1024 := by
          norm_num
        norm_num at hfl ⊢
        omega
    · have hx := interp_mem (1024 * 1024) (5 * 1024 * 1024) s
        ((1024 : ℚ) * 1024) (4 * 1024 * 1024) (by norm_num)
        (by norm_num) (by linarith) h3
      constructor
      · have h64 : (64 : ℤ) * 1024 ≤ 1024 * 1024 := by norm_num
        refine le_trans h64 (Int.le_floor.mpr ?_)
        push_cast
        have := hx.1
        norm_num at this ⊢
        linarith
      · have hfl : ⌊((1024 : ℚ) * 1024 + (s - 1024 * 1024) /
            (5 * 1024 * 1024 - 1024 * 1024) * (4 * 1024 * 1024 - 1024 * 1024))⌋ <
            (4 * 1024 * 1024 : ℤ) + 1 := by
          refine Int.floor_lt.mpr ?_
          push_cast
          have := hx.2
          norm_num at this ⊢
          linarith
        norm_num at hfl ⊢
        omega
    · norm_num

lemma blend_chunk_size_bounds (c n : ℤ)
    (hc1 : MIN_CHUNK_SIZE ≤ c) (hc2 : c ≤ MAX_CHUNK_SIZE)
    (hn1 : MIN_CHUNK_SIZE ≤ n) (hn2 : n ≤ MAX_CHUNK_SIZE) :
    MIN_CHUNK_SIZE ≤ blend_chunk_size c n ∧
      blend_chunk_size c n ≤ MAX_CHUNK_SIZE := by
  simp only [MIN_CHUNK_SIZE, MAX_CHUNK_SIZE] at *
  unfold blend_chunk_size
  split_ifs with h
  · have hc1q : (64 * 1024 : ℚ) ≤ (c : ℚ) := by exact_mod_cast hc1
    have hc2q : (c : ℚ) ≤ 4 * 1024 * 1024 := by exact_mod_cast hc2
    have hn1q : (64 * 1024 : ℚ) ≤ (n : ℚ) := by exact_mod_cast hn1
    have hn2q : (n : ℚ) ≤ 4 * 1024 * 1024 := by exact_mod_cast hn2
    constructor
    · refine Int.le_floor.mpr ?_
      push_cast
      linarith
    · have hfl : ⌊(7 / 10 : ℚ) * (c : ℚ) + 3 / 10 * (n : ℚ)⌋ <
          (4 * 1024 * 1024 : ℤ) + 1 := by
        refine Int.floor_lt.mpr ?_
        push_cast
        linarith
      omega
  · exact ⟨hc1, hc2⟩

lemma reassess_step_preserves (st : Option ℚ × ℤ) (sample : ℚ × ℚ)
    (h1 : MIN_CHUNK_SIZE ≤ st.2) (h2 : st.2 ≤ MAX_CHUNK_SIZE) :
    MIN_CHUNK_SIZE ≤ (reassess_step st sample).2 ∧
      (reassess_step st sample).2 ≤ MAX_CHUNK_SIZE := by
  unfold reassess_step
  split_ifs with h
  · have hg := get_adaptive_chunk_size_bounds
      (update_connection_speed st.1 sample.1 sample.2)
    exact blend_chunk_size_bounds st.2 _ h1 h2 hg.1 hg.2
  · exact ⟨h1, h2⟩

lemma scanl_chunk_inv (samples : List (ℚ × ℚ)) (st : Option ℚ × ℤ)
    (h1 : MIN_CHUNK_SIZE ≤ st.2) (h2 : st.2 ≤ MAX_CHUNK_SIZE) :
    ∀ p ∈ List.scanl reassess_step st samples,
      MIN_CHUNK_SIZE ≤ p.2 ∧ p.2 ≤ MAX_CHUNK_SIZE := by
  induction samples generalizing st with
  | nil =>
    intro p hp
    simp only [List.scanl, List.mem_singleton] at hp
    subst hp
    exact ⟨h1, h2⟩
  | cons a as ih =>
    intro p hp
    simp only [List.scanl, List.mem_cons] at hp
    rcases hp with hp | hp
    · subst hp
      exact ⟨h1, h2⟩
    · have hstep := reassess_step_preserves st a h1 h2
      exact ih (reassess_step st a) hstep.1 hstep.2 p hp

/-- An all-failing stretch of attempts: starting at attempt `i` with `left`
further attempts available, the loop makes `left + 1` attempts and sleeps
the delay after each attempt except the last. -/
lemma retry_go_all_fail (attempt : ℕ → AttemptOutcome) :
    ∀ left i, (∀ j, i ≤ j → j ≤ i + left → attempt j ≠ .ok) →
    retry_go attempt i left =
      ⟨false, left + 1, (List.range' i left).map retry_delay⟩ := by
  intro left
  induction left with
  | zero =>
    intro i hf
    cases h : attempt i with
    | ok => exact absurd h (hf i le_rfl (by omega))
    | failed k =>
      simp only [retry_go, h]
      simp [List.range']
  | succ left ih =>
    intro i hf
    cases h : attempt i with
    | ok => exact absurd h (hf i le_rfl (by omega))
    | failed k =>
      simp only [retry_go, h]
      rw [ih (i + 1) (fun j hj1 hj2 => hf j (by omega) (by omega))]
      simp [List.range']

/-! ## Claim theorems -/

/-- C5: for every initial speed estimate and every sequence of throughput
samples fed to the transfer session, every working chunk size it computes —
the initial tier-derived size and every subsequent 0.3/0.7-blended
adjustment — lies in the closed interval [64 KB, 4 MB] = [65536, 4194304]
bytes. -/
theorem chunk_size_always_in_bounds (speed0 : Option ℚ)
    (samples : List (ℚ × ℚ)) (c : ℤ) (hc : c ∈ chunk_size_trace speed0 samples) :
    MIN_CHUNK_SIZE ≤ c ∧ c ≤ MAX_CHUNK_SIZE := by
  obtain ⟨p, hp, rfl⟩ := List.mem_map.mp hc
  have h0 := get_adaptive_chunk_size_bounds speed0
  exact scanl_chunk_inv samples (speed0, get_adaptive_chunk_size speed0)
    h0.1 h0.2 p hp

/-- Witness for C5 at a concrete trace: initial speed unknown, one 5 MB/s
sample, second element of the trace. -/
theorem chunk_size_always_in_bounds_witness :
    MIN_CHUNK_SIZE ≤ (1048576 : ℤ) ∧ (1048576 : ℤ) ≤ MAX_CHUNK_SIZE :=
  chunk_size_always_in_bounds none [] 1048576 (by decide)

/-- C9: for every retry attempt number `i` in `1..9` (the attempts of the
default `retries = 10` after which a delay is slept), the backoff delay slept
after attempt `i` is `retry_delay i = 2 + (i-1) * 0.5` seconds — it is the
`i`-th delay of an all-failing default run — and the delay is strictly
increasing in `i`. -/
theorem backoff_linear_and_strictly_increasing (i : ℕ)
    (h1 : 1 ≤ i) (h2 : i ≤ 9) :
    retry_delay i = 2 + ((i : ℚ) - 1) * (1/2) ∧
    (download_with_retry (fun _ => AttemptOutcome.failed (ErrorKind.Http 500))
        10).delays.get? (i - 1) = some (retry_delay i) ∧
    retry_delay i < retry_delay (i + 1) := by
  refine ⟨rfl, ?_, ?_⟩
  · have h := retry_go_all_fail
      (fun _ => AttemptOutcome.failed (ErrorKind.Http 500)) 9 1
      (fun j _ _ => by simp)
    simp only [download_with_retry]
    norm_num [h]
    interval_cases i <;> exact ⟨_, rfl, rfl⟩
  · unfold retry_delay
    push_cast
    linarith

/-- Witness for C9 at attempt 3: the third slept delay is 3 seconds and the
next one is larger. -/
theorem backoff_linear_and_strictly_increasing_witness :
    retry_delay 3 = 2 + ((3 : ℚ) - 1) * (1/2) ∧
    (download_with_retry (fun _ => AttemptOutcome.failed (ErrorKind.Http 500))
        10).delays.get? 2 = some (retry_delay 3) ∧
    retry_delay 3 < retry_delay 4 :=
  backoff_linear_and_strictly_increasing 3 (by norm_num) (by norm_num)

/-- C3 counterexample: a task every attempt of which fails with a permanent
kind (here a client error, HTTP 404, which `BaseDownloader.download` turns
into a plain `False` return) is retried through all 10 default attempts with
9 backoff delays — the retry loop does not terminate after the first
permanent failure, contradicting the claim's "no further attempts are made
and no backoff delay is consumed". -/
theorem permanent_failure_still_retried_cex :
    (download_with_retry (fun _ => AttemptOutcome.failed (ErrorKind.Http 404))
        10).attempts_made = 10 ∧
    (download_with_retry (fun _ => AttemptOutcome.failed (ErrorKind.Http 404))
        10).delays.length = 9 ∧
    ¬ ((download_with_retry
          (fun _ => AttemptOutcome.failed (ErrorKind.Http 404))
          10).attempts_made = 1 ∧
       (download_with_retry
          (fun _ => AttemptOutcome.failed (ErrorKind.Http 404))
          10).delays = []) := by
  decide

/-- C3 amended: the retry controller distinguishes only success from failure;
an attempt that ends in a permanent failure kind (RobotsDenied, a client
error other than 429, or SizeMismatch) does NOT terminate the retry loop —
every failure is retried until `max_attempts` is exhausted, with the linear
backoff delay slept between consecutive attempts. -/
theorem all_failures_retried_until_exhaustion (attempt : ℕ → AttemptOutcome)
    (retries : ℕ) (hr : 1 ≤ retries)
    (hfail : ∀ j, 1 ≤ j → j ≤ retries → attempt j ≠ .ok) :
    download_with_retry attempt retries =
      ⟨false, retries, (List.range' 1 (retries - 1)).map retry_delay⟩ := by
  unfold download_with_retry
  have h0 : ¬ retries = 0 := by omega
  simp only [h0, if_false, if_neg]
  rw [retry_go_all_fail attempt (retries - 1) 1
    (fun j hj1 hj2 => hfail j hj1 (by omega))]
  have : retries - 1 + 1 = retries := by omega
  rw [this]

/-- Witness for C3 amended: three attempts all failing with HTTP 500 produce
3 attempts and the delays after attempts 1 and 2. -/
theorem all_failures_retried_until_exhaustion_witness :
    download_with_retry (fun _ => AttemptOutcome.failed (ErrorKind.Http 500)) 3 =
      ⟨false, 3, (List.range' 1 2).map retry_delay⟩ :=
  all_failures_retried_until_exhaustion _ 3 (by norm_num)
    (fun j _ _ => by simp)

/-- C1 counterexample: declared size 1000, delivered 900.  The transfer does
fail (`size_mismatch`) and the ledger is untouched, but the rename is NOT
skipped: `download` renames `temp_path` to `final_path` (lines 345-347)
before the integrity check (lines 353-362), so the mismatched file sits at
the final path and no `.part` file remains — contradicting the claim that
"the rename from the .part path to the final path is skipped (the file
remains at the .part path)". -/
theorem size_mismatch_rename_not_skipped_cex :
    download false ⟨none, none, false⟩ [⟨200, false, none, some 1000, 900⟩] =
      (DLResult.size_mismatch, ⟨none, some 900, false⟩) ∧
    (download false ⟨none, none, false⟩
        [⟨200, false, none, some 1000, 900⟩]).2.part_size ≠ some 900 := by
  decide

/-- C1 amended: whenever a transfer ends in `size_mismatch`, the result is a
failure, the ledger is not updated, and no `.part` file remains — but not
because the rename was skipped: the `.part` file has already been renamed to
the final path (the rename precedes the integrity check), so the mismatched
bytes are left at the final path. -/
theorem size_mismatch_fails_no_ledger_file_at_final_path
    (robots : Bool) (st : DLState) (resps : List Resp)
    (h : (download robots st resps).1 = DLResult.size_mismatch) :
    (download robots st resps).2.ledger = st.ledger ∧
    (download robots st resps).2.part_size = none ∧
    ∃ n, (download robots st resps).2.final_size = some n := by
  induction resps generalizing st with
  | nil =>
    simp only [download] at h ⊢
    split_ifs at h <;> simp_all
  | cons r rest ih =>
    simp only [download] at h ⊢
    split_ifs at h ⊢
    all_goals
      first
        | simp_all
        | (have hrec := ih { st with part_size := none } h
           simpa using hrec)

/-- Witness for C1 amended at the counterexample input. -/
theorem size_mismatch_fails_no_ledger_file_at_final_path_witness :
    (download false ⟨none, none, false⟩
        [⟨200, false, none, some 1000, 900⟩]).2.ledger = false ∧
    (download false ⟨none, none, false⟩
        [⟨200, false, none, some 1000, 900⟩]).2.part_size = none ∧
    ∃ n, (download false ⟨none, none, false⟩
        [⟨200, false, none, some 1000, 900⟩]).2.final_size = some n :=
  size_mismatch_fails_no_ledger_file_at_final_path false ⟨none, none, false⟩
    [⟨200, false, none, some 1000, 900⟩] (by decide)

/-- C2: a transfer resumed from a non-zero offset (`.part` of size `k > 0`)
that receives HTTP 416 discards the `.part` file and restarts the same task
from offset zero; if the restarted request receives 416 again it is NOT
restarted a second time — with `start_byte = 0` the 416 falls through to the
non-2xx branch and surfaces as `http_error 416`.  The restart recursion is
therefore bounded at one automatic restart. -/
theorem http416_restarts_once_then_fails (st : DLState) (k : ℕ) (hk : 0 < k)
    (hpart : st.part_size = some k) (r1 r2 : Resp) (rest : List Resp)
    (h1 : r1.status = 416) (h2 : r2.status = 416) :
    download false st (r1 :: r2 :: rest) =
      (DLResult.http_error 416, { st with part_size := none }) := by
  simp only [download, Bool.false_eq_true, if_false, hpart, Option.getD_some]
  rw [if_pos (show 0 < k ∧ r1.status = 416 from ⟨hk, h1⟩)]
  simp only [download, Bool.false_eq_true, if_false, Option.getD_none]
  rw [if_neg (show ¬ (0 < 0 ∧ r2.status = 416) by simp)]
  rw [if_neg (show ¬ (0 < 0 ∧ r2.status ≠ 206) by simp)]
  rw [if_pos (show ¬ (200 ≤ r2.status ∧ r2.status < 300) by omega)]
  rw [h2]

/-- Witness for C2: a 500-byte `.part` file, two 416 responses. -/
theorem http416_restarts_once_then_fails_witness :
    download false ⟨some 500, none, false⟩
        [⟨416, false, none, none, 0⟩, ⟨416, false, none, none, 0⟩] =
      (DLResult.http_error 416, ⟨none, none, false⟩) :=
  http416_restarts_once_then_fails ⟨some 500, none, false⟩ 500 (by norm_num)
    rfl ⟨416, false, none, none, 0⟩ ⟨416, false, none, none, 0⟩ [] rfl rfl

/-- C7: a file URL already present in the already-downloaded ledger yields a
skipped-success result with zero network calls — neither the URL resolver
(`get_real_download_url`) nor any transfer request is invoked. -/
theorem ledger_hit_skips_with_no_network (ledger : List String) (url : String)
    (resolve_ok transfer_ok : Bool) (h : url ∈ ledger) :
    download_file ledger url resolve_ok transfer_ok =
      ({ success := true, skipped := true }, []) := by
  simp [download_file, h]

/-- Witness for C7 with a two-entry ledger. -/
theorem ledger_hit_skips_with_no_network_witness :
    download_file ["https://a.example/f/1", "https://a.example/f/2"]
        "https://a.example/f/1" true true =
      ({ success := true, skipped := true }, []) :=
  ledger_hit_skips_with_no_network _ _ true true
    (List.mem_cons_self _ _)

/-! ### Scheduler invariants -/

lemma sched_step_reduced_monotone (st : SchedState) (o : Outcome)
    (h : st.reduced_concurrency = true) :
    (sched_step st o).reduced_concurrency = true := by
  unfold sched_step admit_next reduce_if_needed record_completion
  cases o <;> split_ifs <;> simp_all

lemma sched_step_workers_le (st : SchedState) (o : Outcome)
    (h : 1 ≤ st.actual_workers) :
    (sched_step st o).actual_workers ≤ st.actual_workers := by
  unfold sched_step admit_next reduce_if_needed record_completion
  cases o <;> split_ifs <;> simp_all <;> omega

lemma sched_step_workers_pos (st : SchedState) (o : Outcome)
    (h : 1 ≤ st.actual_workers) :
    1 ≤ (sched_step st o).actual_workers := by
  unfold sched_step admit_next reduce_if_needed record_completion
  cases o <;> split_ifs <;> simp_all

lemma sched_step_active_le (w0 : ℕ) (st : SchedState) (o : Outcome)
    (h1 : st.active ≤ w0) (h2 : st.actual_workers ≤ w0)
    (hp : 1 ≤ st.actual_workers) :
    (sched_step st o).active ≤ w0 := by
  unfold sched_step admit_next reduce_if_needed record_completion
  cases o <;> split_ifs <;> simp_all <;> omega

lemma sched_step_not_reduced (st : SchedState) (o : Outcome)
    (h : (sched_step st o).reduced_concurrency = false) :
    st.reduced_concurrency = false := by
  cases hr : st.reduced_concurrency with
  | false => rfl
  | true => exact absurd (sched_step_reduced_monotone st o hr) (by simp [h])

lemma sched_step_active_le_workers (st : SchedState) (o : Outcome)
    (hp : st.reduced_concurrency = false → st.active ≤ st.actual_workers)
    (h : (sched_step st o).reduced_concurrency = false) :
    (sched_step st o).active ≤ (sched_step st o).actual_workers := by
  have hpre := hp (sched_step_not_reduced st o h)
  unfold sched_step admit_next reduce_if_needed record_completion at h ⊢
  cases o <;> split_ifs at h ⊢ <;> simp_all <;> omega

lemma sched_run_inv (w0 : ℕ) (os : List Outcome) : ∀ st : SchedState,
    st.active ≤ w0 → st.actual_workers ≤ w0 → 1 ≤ st.actual_workers →
    (st.reduced_concurrency = false → st.active ≤ st.actual_workers) →
    (sched_run st os).active ≤ w0 ∧
    (sched_run st os).actual_workers ≤ w0 ∧
    ((sched_run st os).reduced_concurrency = false →
      (sched_run st os).active ≤ (sched_run st os).actual_workers) := by
  induction os with
  | nil => exact fun st h1 h2 h3 h4 => ⟨h1, h2, h4⟩
  | cons o os ih =>
    intro st h1 h2 h3 h4
    have hrun : sched_run st (o :: os) = sched_run (sched_step st o) os := by
      simp [sched_run]
    rw [hrun]
    exact ih (sched_step st o)
      (sched_step_active_le w0 st o h1 h2 h3)
      (le_trans (sched_step_workers_le st o h3) h2)
      (sched_step_workers_pos st o h3)
      (sched_step_active_le_workers st o h4)

lemma sched_step_frozen (st : SchedState) (o : Outcome)
    (h : st.reduced_concurrency = true) :
    (sched_step st o).actual_workers = st.actual_workers ∧
    (sched_step st o).pauses = st.pauses ∧
    (sched_step st o).reduced_concurrency = true := by
  unfold sched_step admit_next reduce_if_needed record_completion
  cases o <;> split_ifs <;> simp_all

lemma sched_run_frozen (os : List Outcome) : ∀ st : SchedState,
    st.reduced_concurrency = true →
    (sched_run st os).actual_workers = st.actual_workers ∧
    (sched_run st os).pauses = st.pauses := by
  induction os with
  | nil => exact fun st _ => ⟨rfl, rfl⟩
  | cons o os ih =>
    intro st h
    have hrun : sched_run st (o :: os) = sched_run (sched_step st o) os := by
      simp [sched_run]
    obtain ⟨hw, hp, hr⟩ := sched_step_frozen st o h
    rw [hrun]
    obtain ⟨hw2, hp2⟩ := ih (sched_step st o) hr
    exact ⟨hw2.trans hw, hp2.trans hp⟩

/-- C4 counterexample: `max_concurrent = 3`, 5 URLs (so the initial target is
3 workers and 3 tasks are admitted at once), and three consecutive failures.
After the third failure the target is halved to 1, while 2 tasks admitted
under the old target are still in flight — so the in-flight count (2)
exceeds the current target worker count (1), contradicting the claim "at
every point in the run the number of in-flight tasks is at most the current
target worker count, including after the worker count has been reduced
mid-run". -/
theorem inflight_exceeds_reduced_target_cex :
    (sched_run (init_sched_state 3 5)
        [Outcome.failure, Outcome.failure, Outcome.failure]).active = 2 ∧
    (sched_run (init_sched_state 3 5)
        [Outcome.failure, Outcome.failure, Outcome.failure]).actual_workers = 1 ∧
    ¬ ((sched_run (init_sched_state 3 5)
          [Outcome.failure, Outcome.failure, Outcome.failure]).active ≤
        (sched_run (init_sched_state 3 5)
          [Outcome.failure, Outcome.failure, Outcome.failure]).actual_workers) := by
  decide

/-- C4 amended: the in-flight count never exceeds the worker target that was
current when the tasks were admitted — it is always at most the initial
target, and as long as no mid-run reduction has occurred it is at most the
current target.  Immediately after a mid-run halving, tasks admitted under
the old target may keep the in-flight count above the new target until they
complete; the reduced target constrains admissions, not tasks already in
flight. -/
theorem inflight_bounded_by_admission_target (m n : ℕ) (hm : 1 ≤ m)
    (os : List Outcome) :
    (sched_run (init_sched_state m n) os).active ≤ actual_workers_for m n ∧
    ((sched_run (init_sched_state m n) os).reduced_concurrency = false →
      (sched_run (init_sched_state m n) os).active ≤
        (sched_run (init_sched_state m n) os).actual_workers) := by
  have hw1 : 1 ≤ actual_workers_for m n := by
    unfold actual_workers_for
    split_ifs <;> omega
  have h := sched_run_inv (actual_workers_for m n) os (init_sched_state m n)
    (by simp [init_sched_state])
    (by simp [init_sched_state])
    (by simpa [init_sched_state] using hw1)
    (by simp [init_sched_state])
  exact ⟨h.1, h.2.2⟩

/-- Witness for C4 amended: 3 workers, 5 URLs, one successful completion. -/
theorem inflight_bounded_by_admission_target_witness :
    (sched_run (init_sched_state 3 5) [Outcome.success]).active ≤
        actual_workers_for 3 5 ∧
    (sched_run (init_sched_state 3 5) [Outcome.success]).active ≤
        (sched_run (init_sched_state 3 5) [Outcome.success]).actual_workers :=
  ⟨(inflight_bounded_by_admission_target 3 5 (by norm_num) [Outcome.success]).1,
   (inflight_bounded_by_admission_target 3 5 (by norm_num)
      [Outcome.success]).2 (by decide)⟩

/-- C6: when the consecutive error count reaches 3 (a failure arrives with
the counter at 2) and no reduction has yet occurred in this run, the target
worker count is halved with a floor of 1, the reduced flag is set, and one
3-second recovery pause is slept (before the admission step of the same
iteration); and for the entire rest of the run — even if failures continue —
the worker target and the pause count never change again, so the halving
fires exactly once per batch. -/
theorem concurrency_reduction_fires_exactly_once (st : SchedState)
    (o : Outcome) (os : List Outcome)
    (h1 : st.reduced_concurrency = false) (h2 : o = Outcome.failure)
    (h3 : st.consecutive_errors = 2) :
    (sched_step st o).actual_workers = max 1 (st.actual_workers / 2) ∧
    (sched_step st o).reduced_concurrency = true ∧
    (sched_step st o).pauses = st.pauses + 1 ∧
    (sched_run (sched_step st o) os).actual_workers =
      (sched_step st o).actual_workers ∧
    (sched_run (sched_step st o) os).pauses = (sched_step st o).pauses := by
  subst h2
  have hstep :
      (sched_step st Outcome.failure).actual_workers =
        max 1 (st.actual_workers / 2) ∧
      (sched_step st Outcome.failure).reduced_concurrency = true ∧
      (sched_step st Outcome.failure).pauses = st.pauses + 1 := by
    unfold sched_step admit_next reduce_if_needed record_completion
    split_ifs <;> simp_all
  obtain ⟨ha, hb, hc⟩ := hstep
  obtain ⟨hd, he⟩ := sched_run_frozen os (sched_step st Outcome.failure) hb
  exact ⟨ha, hb, hc, hd, he⟩

/-- Witness for C6: a mid-run state with 3 workers, 2 consecutive errors,
no prior reduction; a third failure, then two more failures. -/
theorem concurrency_reduction_fires_exactly_once_witness :
    (sched_step ⟨3, 2, 3, 2, false, 2, 2, 0, 0⟩
        Outcome.failure).actual_workers = max 1 (3 / 2) ∧
    (sched_step ⟨3, 2, 3, 2, false, 2, 2, 0, 0⟩
        Outcome.failure).reduced_concurrency = true ∧
    (sched_step ⟨3, 2, 3, 2, false, 2, 2, 0, 0⟩
        Outcome.failure).pauses = 0 + 1 ∧
    (sched_run (sched_step ⟨3, 2, 3, 2, false, 2, 2, 0, 0⟩ Outcome.failure)
        [Outcome.failure, Outcome.failure]).actual_workers =
      (sched_step ⟨3, 2, 3, 2, false, 2, 2, 0, 0⟩ Outcome.failure).actual_workers ∧
    (sched_run (sched_step ⟨3, 2, 3, 2, false, 2, 2, 0, 0⟩ Outcome.failure)
        [Outcome.failure, Outcome.failure]).pauses =
      (sched_step ⟨3, 2, 3, 2, false, 2, 2, 0, 0⟩ Outcome.failure).pauses :=
  concurrency_reduction_fires_exactly_once ⟨3, 2, 3, 2, false, 2, 2, 0, 0⟩
    Outcome.failure [Outcome.failure, Outcome.failure] rfl rfl rfl

/-- C10: for every batch of more than 10 file URLs the worker count actually
used is `max 2 (max_concurrent - 1)` — the configured pool is silently
reduced by one worker, but never below 2 — while for batches of 10 or fewer
URLs the configured value is used unchanged.  (`max_concurrent ≥ 2` holds on
the only call path: `_process_album` takes the concurrent branch only when
`max_concurrent_downloads > 1`.) -/
theorem large_batch_worker_count_reduced (m n : ℕ) (hm : 2 ≤ m) :
    (10 < n → actual_workers_for m n = max 2 (m - 1)) ∧
    (n ≤ 10 → actual_workers_for m n = m) := by
  unfold actual_workers_for
  constructor
  · intro h
    rw [if_pos h]
    omega
  · intro h
    rw [if_neg (by omega)]

/-- Witness for C10: configured pool of 5 with an 11-URL batch uses 4
workers; with a 10-URL batch it uses 5. -/
theorem large_batch_worker_count_reduced_witness :
    actual_workers_for 5 11 = max 2 (5 - 1) ∧ actual_workers_for 5 10 = 5 :=
  ⟨(large_batch_worker_count_reduced 5 11 (by norm_num)).1 (by norm_num),
   (large_batch_worker_count_reduced 5 10 (by norm_num)).2 (by norm_num)⟩

/-- C8 (documents the code bug): the claim — taken from the code's own
comments ("Reduce by 40%" / "Reduce by 60%", and the `logger.warning`
"severely limiting threads") — requires that some CPU reading above the
critical threshold (95%) receives the 60% reduction.  In the code the
`elif system_percent > CPU_CRITICAL_THRESHOLD` branch is unreachable: every
reading above 95 is already above 85, so the first branch always wins and
only the 40% reduction (factor 0.6) is ever applied.  Concretely, at
`system_percent = 96` with 8 cores and load factor 0.75, the result is
`max(1, int(6 * 0.6)) = 3`, not the `max(1, int(6 * 0.4)) = 2` the
documented 60% reduction would give. -/
theorem critical_cpu_reduction_unreachable :
    (∀ p : ℚ, p > CPU_CRITICAL_THRESHOLD → cpu_reduction_factor p = 6/10) ∧
    get_optimal_thread_count 8 96 none none 1 (3/4) = 3 := by
  constructor
  · intro p hp
    unfold cpu_reduction_factor
    rw [if_pos]
    unfold CPU_CRITICAL_THRESHOLD at hp
    unfold CPU_HIGH_THRESHOLD
    linarith
  · norm_num [get_optimal_thread_count, cpu_reduction_factor,
      CPU_HIGH_THRESHOLD, CPU_CRITICAL_THRESHOLD,
      show Int.toNat 6 = 6 from rfl]
    rfl

/-- Witness for C8 at the CPU reading 96%. -/
theorem critical_cpu_reduction_unreachable_witness :
    cpu_reduction_factor 96 = 6/10 ∧
    get_optimal_thread_count 8 96 none none 1 (3/4) = 3 :=
  ⟨critical_cpu_reduction_unreachable.1 96 (by norm_num [CPU_CRITICAL_THRESHOLD]),
   critical_cpu_reduction_unreachable.2⟩

end Bunkrd
